import Mathlib

/-!
Shallow embedding of the fastify-synology-chat plugin core
(message schemas, Ajv-style validation, body normalization,
dispatch adapter, outbound sender) together with proofs of the
spec claims about it.

JSON values are modelled with rational numbers for the `number`
type (so that non-integer JSON numbers such as 1.5 are
representable, which matters for the `number` vs `integer`
distinction between the inbound and outbound schemas).
-/

namespace SynologyChat

/-- JSON value, the canonical in-memory representation of request
bodies, messages and responses. Objects are ordered key/value lists,
mirroring JavaScript object semantics (no duplicate keys arise from
`JSON.parse` or construction by the plugin itself). -/
inductive JVal where
  | null : JVal
  | bool (b : Bool) : JVal
  | num (q : ℚ) : JVal
  | str (s : String) : JVal
  | arr (xs : List JVal) : JVal
  | obj (props : List (String × JVal)) : JVal
deriving Repr

/-- First-occurrence property lookup in a JSON object,
as JavaScript property access on objects built without duplicates. -/
def getProp : List (String × JVal) → String → Option JVal
  | [], _ => none
  | (k, v) :: rest, name => if k = name then some v else getProp rest name

/-- Whether a JSON value is a number (Ajv type `number`). -/
def JVal.isNum : JVal → Bool
  | .num _ => true
  | _ => false

/-- Whether a JSON value is an integer (Ajv type `integer`):
a number with denominator 1. -/
def JVal.isInt : JVal → Bool
  | .num q => q.den = 1
  | _ => false

/-- One Ajv-style validation error: the instance path of the failing
value (`instancePath`), the violated keyword (`type`, `required`,
`enum`, `additionalProperties`, `format`, `oneOf`), and a keyword
parameter (the expected type, the missing property name, or the
unexpected property name; empty when the keyword carries none). -/
structure Violation where
  instancePath : String
  keyword : String
  param : String
deriving Repr, DecidableEq

/-- The fragment of JSON Schema used by the two schemas of the plugin,
as an AST. `obj` carries the declared properties, the required
property names, and whether additional properties are allowed.
`uri` is `{type: string, format: uri}`. -/
inductive JSchema where
  | str : JSchema
  | num : JSchema
  | int : JSchema
  | strEnum (vals : List String) : JSchema
  | uri : JSchema
  | arr (item : JSchema) : JSchema
  | obj (props : List (String × JSchema)) (required : List String)
      (additional : Bool) : JSchema
  | oneOf (subs : List JSchema) : JSchema
deriving Repr

mutual

/-- Ajv validation of a JSON value against a schema in the
configuration the repository uses on the outbound/test side
(`allErrors: true`, `coerceTypes: false`, ajv-formats loaded, as in
test/validation.js): every violation is collected with its full
instance path and no type coercion is performed. The inbound route
validation, which fastify runs with a different default Ajv
configuration, is modelled separately by `firstViolation` below.
`uc` models the external ajv-formats `uri` format checker. -/
def validate (uc : String → Bool) (path : String) :
    JSchema → JVal → List Violation
  | .str, v =>
    match v with
    | .str _ => []
    | _ => [⟨path, "type", "string"⟩]
  | .num, v =>
    match v with
    | .num _ => []
    | _ => [⟨path, "type", "number"⟩]
  | .int, v =>
    match v with
    | .num q => if q.den = 1 then [] else [⟨path, "type", "integer"⟩]
    | _ => [⟨path, "type", "integer"⟩]
  | .strEnum vals, v =>
    match v with
    | .str s => if s ∈ vals then [] else [⟨path, "enum", ""⟩]
    | _ => [⟨path, "type", "string"⟩]
  | .uri, v =>
    match v with
    | .str s => if uc s then [] else [⟨path, "format", "uri"⟩]
    | _ => [⟨path, "type", "string"⟩]
  | .arr item, v =>
    match v with
    | .arr xs => validateItems uc path item xs 0
    | _ => [⟨path, "type", "array"⟩]
  | .obj props required additional, v =>
    match v with
    | .obj kvs =>
      ((required.filter (fun r => (getProp kvs r).isNone)).map
          (fun r => (⟨path, "required", r⟩ : Violation)))
        ++ (if additional then []
            else (kvs.filter
                (fun kv => (props.lookup kv.1).isNone)).map
              (fun kv => (⟨path, "additionalProperties", kv.1⟩ : Violation)))
        ++ validateProps uc path props kvs
    | _ => [⟨path, "type", "object"⟩]
  | .oneOf subs, v =>
    let results := validateEach uc path subs v
    if results.countP (fun r => r.isEmpty) = 1 then []
    else results.flatten ++ [⟨path, "oneOf", ""⟩]

/-- Validate every element of an array against the item schema,
accumulating the element index into the instance path. -/
def validateItems (uc : String → Bool) (path : String) (item : JSchema) :
    List JVal → Nat → List Violation
  | [], _ => []
  | x :: xs, i =>
    validate uc (path ++ "/" ++ toString i) item x
      ++ validateItems uc path item xs (i + 1)

/-- Validate each declared property that is present on the object. -/
def validateProps (uc : String → Bool) (path : String) :
    List (String × JSchema) → List (String × JVal) → List Violation
  | [], _ => []
  | (name, sub) :: rest, kvs =>
    (match getProp kvs name with
     | some v => validate uc (path ++ "/" ++ name) sub v
     | none => [])
      ++ validateProps uc path rest kvs

/-- Validate a value against each subschema of a `oneOf`. -/
def validateEach (uc : String → Bool) (path : String) :
    List JSchema → JVal → List (List Violation)
  | [], _ => []
  | s :: rest, v => validate uc path s v :: validateEach uc path rest v

end

/-- A trivial model of the `uri` format checker that accepts every
string; none of the claims exercises `file_url`, and every theorem
that can be stated for all checkers is. -/
def anyUri : String → Bool := fun _ => true

/-! ## The two schema profiles, translated from the source -/

/-- Action subschema of the inbound `webhookSchema` (index.js):
button actions with required `type`, `name`, `text`, `value`;
`additionalProperties` is not restricted (JSON Schema default). -/
def actionSchemaIn : JSchema :=
  .obj [("type", .strEnum ["button"]),
        ("text", .str),
        ("name", .str),
        ("value", .str),
        ("style", .strEnum ["green", "grey", "red", "orange", "blue", "teal"])]
    ["type", "name", "text", "value"] true

/-- Attachment subschema of the inbound `webhookSchema` (index.js):
only `text` is required; `callback_id` is optional. -/
def attachmentSchemaIn : JSchema :=
  .obj [("callback_id", .str),
        ("text", .str),
        ("actions", .arr actionSchemaIn)]
    ["text"] true

/-- Inbound profile: the `webhookSchema.body` of index.js. `text` is
required, `user_ids` items are type `number`, `file_url` is an
unconstrained string, and `additionalProperties: true`. -/
def webhookSchema : JSchema :=
  .obj [("text", .str),
        ("file_url", .str),
        ("user_ids", .arr .num),
        ("attachments", .arr attachmentSchemaIn)]
    ["text"] true

/-- Outbound action schema (`actionSchema` of the message schema
module): same shape as inbound but `additionalProperties: false`. -/
def actionSchema : JSchema :=
  .obj [("type", .strEnum ["button"]),
        ("text", .str),
        ("name", .str),
        ("value", .str),
        ("style", .strEnum ["green", "grey", "red", "orange", "blue", "teal"])]
    ["type", "name", "text", "value"] false

/-- Outbound attachment schema (`attachmentSchema` of the message
schema module): requires `text` only — `callback_id` is declared but
never required — and `additionalProperties: false`. -/
def attachmentSchema : JSchema :=
  .obj [("callback_id", .str),
        ("text", .str),
        ("actions", .arr actionSchema)]
    ["text"] false

/-- The object branch of the outbound profile: a closed object
requiring `text`, with `file_url` a format-`uri` string and
`user_ids` items type `integer`. -/
def messageObjSchema : JSchema :=
  .obj [("text", .str),
        ("file_url", .uri),
        ("user_ids", .arr .int),
        ("attachments", .arr attachmentSchema)]
    ["text"] false

/-- Outbound profile (`messageSchema` of the message schema module):
either a bare string, or the closed object form. -/
def messageSchema : JSchema :=
  .oneOf [.str, messageObjSchema]

/-! ## Inbound route validation (fastify default Ajv)

fastify compiles the `webhookSchema.body` with its default Ajv
configuration, which differs from the outbound/test configuration in
two ways that matter here: `allErrors: false` (validation stops at
and reports only the first violation) and `coerceTypes: 'array'`
(a value of the wrong scalar type is accepted when Ajv can coerce
it to the expected type, and scalars and single-item arrays are
interchangeable). The coercion table is external Ajv behavior and
is modelled by two parameters: `cn v = some q` when Ajv coerces the
non-number `v` to the number `q` (numeric strings, booleans, null),
`cs v = some s` when Ajv coerces the non-string `v` to the string
`s` (numbers, booleans). Coercion mutates the request body before
it reaches the handler; no claim depends on that, so the mutation
is not modelled. The inbound schema declares no `format`, so format
assertions do not arise. -/

mutual

/-- First (and only reported) violation of the inbound validation,
or `none` when the body is accepted. The scalar cases check the
actual type first and fall back to the coercion parameters. -/
def firstViolation (cn : JVal → Option ℚ) (cs : JVal → Option String)
    (path : String) : JSchema → JVal → Option Violation
  | .str, v =>
    match v with
    | .str _ => none
    | w =>
      match cs w with
      | some _ => none
      | none => some ⟨path, "type", "string"⟩
  | .num, v =>
    match v with
    | .num _ => none
    | w =>
      match cn w with
      | some _ => none
      | none => some ⟨path, "type", "number"⟩
  | .int, v =>
    match (match v with | .num q => some q | w => cn w) with
    | some q => if q.den = 1 then none else some ⟨path, "type", "integer"⟩
    | none => some ⟨path, "type", "integer"⟩
  | .strEnum vals, v =>
    match (match v with | .str s => some s | w => cs w) with
    | some s => if s ∈ vals then none else some ⟨path, "enum", ""⟩
    | none => some ⟨path, "type", "string"⟩
  | .uri, v =>
    match v with
    | .str _ => none
    | w =>
      match cs w with
      | some _ => none
      | none => some ⟨path, "type", "string"⟩
  | .arr item, v =>
    match v with
    | .arr xs => firstViolationItems cn cs path item xs 0
    | w => firstViolationItems cn cs path item [w] 0
  | .obj props required additional, v =>
    match v with
    | .obj kvs =>
      match required.find? (fun r => (getProp kvs r).isNone) with
      | some r => some ⟨path, "required", r⟩
      | none =>
        match (if additional then none
               else (kvs.find? (fun kv => (props.lookup kv.1).isNone)).map
                 (fun kv => (⟨path, "additionalProperties", kv.1⟩ : Violation))) with
        | some e => some e
        | none => firstViolationProps cn cs path props kvs
    | _ => some ⟨path, "type", "object"⟩
  | .oneOf subs, v =>
    if (firstViolationEach cn cs path subs v).countP (fun r => r.isNone) = 1
    then none
    else some ⟨path, "oneOf", ""⟩

/-- First violation among the elements of an array (a scalar coerced
into a single-item array is validated as its element 0). -/
def firstViolationItems (cn : JVal → Option ℚ) (cs : JVal → Option String)
    (path : String) (item : JSchema) :
    List JVal → Nat → Option Violation
  | [], _ => none
  | x :: xs, i =>
    match firstViolation cn cs (path ++ "/" ++ toString i) item x with
    | some e => some e
    | none => firstViolationItems cn cs path item xs (i + 1)

/-- First violation among the declared properties present on the
object, in declaration order. -/
def firstViolationProps (cn : JVal → Option ℚ) (cs : JVal → Option String)
    (path : String) :
    List (String × JSchema) → List (String × JVal) → Option Violation
  | [], _ => none
  | (name, sub) :: rest, kvs =>
    match getProp kvs name with
    | some v =>
      match firstViolation cn cs (path ++ "/" ++ name) sub v with
      | some e => some e
      | none => firstViolationProps cn cs path rest kvs
    | none => firstViolationProps cn cs path rest kvs

/-- Pass/fail of each branch of a `oneOf` (unused by the inbound
schema, present for exhaustiveness). -/
def firstViolationEach (cn : JVal → Option ℚ) (cs : JVal → Option String)
    (path : String) : List JSchema → JVal → List (Option Violation)
  | [], _ => []
  | s :: rest, v =>
    firstViolation cn cs path s v :: firstViolationEach cn cs path rest v

end

/-- Value of a non-empty digit string, or none. -/
def digitsVal : List Char → Option ℕ
  | [] => none
  | cs =>
    if cs.all Char.isDigit
    then some (cs.foldl (fun a c => a * 10 + (c.toNat - 48)) 0)
    else none

/-- Value of an optionally minus-signed digit string, or none. -/
def strNumVal : List Char → Option ℤ
  | [] => none
  | c :: cs =>
    if c = '-'
    then (digitsVal cs).map (fun n => -(n : ℤ))
    else (digitsVal (c :: cs)).map (fun n => (n : ℤ))

/-- Representative of the Ajv coercion to number, used to evaluate
the inbound model at concrete inputs: integer numerals, booleans
and null coerce; other values do not. (Ajv also coerces decimal and
scientific numerals; no concrete input here exercises those, and the
theorems quantify over the coercion function.) -/
def coerceNumModel : JVal → Option ℚ
  | .str s => (strNumVal s.data).map (fun n => (n : ℚ))
  | .bool true => some 1
  | .bool false => some 0
  | .null => some 0
  | .num q => some q
  | _ => none

/-- Representative of the Ajv coercion to string: numbers and
booleans coerce, null, arrays and objects do not. -/
def coerceStrModel : JVal → Option String
  | .str s => some s
  | .num q => some (toString q)
  | .bool b => some (toString b)
  | _ => none

/-! ## Body Normalizer (the `application/x-www-form-urlencoded`
content type parser of index.js, and the JSON body path) -/

/-- An error produced while normalizing a request body, carrying the
HTTP status code the request is answered with and the message. -/
structure ParseErr where
  statusCode : Nat
  message : String
deriving Repr, DecidableEq

/-- Model of `URLSearchParams.get`: the value of the first occurrence of a
key in the parsed form body, or none. -/
def lookupParam : List (String × String) → String → Option String
  | [], _ => none
  | (k, v) :: rest, name => if k = name then some v else lookupParam rest name

/-- Setting `result[key] = value` on a JavaScript object: the value
of an existing key is updated in place, a new key is appended. -/
def setProp : List (String × JVal) → String → JVal → List (String × JVal)
  | [], key, v => [(key, v)]
  | (k, w) :: rest, key, v =>
    if k = key then (k, v) :: rest else (k, w) :: setProp rest key v

/-- One iteration of the form fold: `result[key] = value` with the
value kept as a string (no type coercion). -/
def foldStep (acc : List (String × JVal)) (kv : String × String) :
    List (String × JVal) :=
  setProp acc kv.1 (.str kv.2)

/-- The `else` branch of the form content-type parser: fold the flat
key/value pairs of the form body into an object, later occurrences of
a key overwriting earlier ones (`result[key] = value` in a loop over
`params.entries()`). Values remain strings, no type coercion. -/
def foldParams (params : List (String × String)) : List (String × JVal) :=
  params.foldl foldStep []

/-- The form content-type parser registered by the plugin, operating
on the key/value pairs produced by `new URLSearchParams(body)`.
`jparse` models the external `JSON.parse` (a parse failure is
modelled as `Except.error` with the thrown message). If a `payload` field is
present its value is parsed as JSON and becomes the canonical
message (a parse failure is a 400 error); otherwise the flat pairs
are folded into an object. -/
def parseFormBody (jparse : String → Except String JVal)
    (params : List (String × String)) : Except ParseErr JVal :=
  match lookupParam params "payload" with
  | some p =>
    match jparse p with
    | .ok v => .ok v
    | .error e => .error ⟨400, "Invalid JSON in payload: " ++ e⟩
  | none => .ok (.obj (foldParams params))

/-- The JSON body path: the fastify default `application/json` parser
applies the same external `JSON.parse` to the raw body; a parse
failure is a 400 client error. -/
def parseJsonBody (jparse : String → Except String JVal)
    (body : String) : Except ParseErr JVal :=
  match jparse body with
  | .ok v => .ok v
  | .error e => .error ⟨400, e⟩

/-! ## Dispatch Adapter (the `fastify.post(path, ...)` route handler) -/

/-- The body a route reply carries: a JSON-serialized value, or a
raw string sent verbatim (fastify sends string payloads as plain
text). -/
inductive ReplyBody where
  | json (v : JVal) : ReplyBody
  | text (s : String) : ReplyBody
deriving Repr

/-- An answered HTTP request: status code and body. -/
structure RouteReply where
  status : Nat
  body : ReplyBody
deriving Repr

/-- The webhook route handler of index.js. `onMessage` models the
registered (possibly async, already awaited) handler: `Except.error`
is a thrown error, `Except.ok none` covers `undefined` as well as a
missing return value, `Except.ok (some v)` a returned value.
A returned `null` maps to the default success reply like
`undefined` (`result === undefined || result === null`); a returned
string is sent verbatim; any other returned value is sent as the
JSON response body; a thrown error is caught and answered with
status 500 and `{success: false, error: err.message}`. -/
def postHandler (onMessage : JVal → Except String (Option JVal))
    (body : JVal) : RouteReply :=
  match onMessage body with
  | .error m =>
    ⟨500, .json (.obj [("success", .bool false), ("error", .str m)])⟩
  | .ok none => ⟨200, .json (.obj [("success", .bool true)])⟩
  | .ok (some .null) => ⟨200, .json (.obj [("success", .bool true)])⟩
  | .ok (some (.str s)) => ⟨200, .text s⟩
  | .ok (some v) => ⟨200, .json v⟩

/-- The inbound pipeline for a form-encoded request: normalize the
body, validate it against the inbound `webhookSchema` (fastify
rejects schema violations with status 400 before the handler runs),
then dispatch to the handler. -/
def handleInboundForm (jparse : String → Except String JVal)
    (onMessage : JVal → Except String (Option JVal))
    (params : List (String × String)) : Except ParseErr RouteReply :=
  match parseFormBody jparse params with
  | .error e => .error e
  | .ok body =>
    if validate anyUri "" webhookSchema body = [] then
      .ok (postHandler onMessage body)
    else .error ⟨400, "body failed schema validation"⟩

/-! ## Outbound Sender (the `synologyChat.sendMessage` decorator) -/

/-- JavaScript truthiness of the nullable string options
(`url`, `webhookUrl`): `null` and the empty string are falsy. -/
def strTruthy : Option String → Bool
  | none => false
  | some s => s ≠ ""

/-- Destination resolution, `const targetUrl = url || webhookUrl`
followed by the
`if (!targetUrl)` guard: the per-call override when truthy, else the
configured default when truthy, else no destination. -/
def resolveTarget (url webhookUrl : Option String) : Option String :=
  let t := if strTruthy url then url else webhookUrl
  if strTruthy t then t else none

/-- String messages are converted to `{text: message}`; object
messages are sent as they are. -/
def formatPayload : JVal → JVal
  | .str s => .obj [("text", .str s)]
  | v => v

/-- What `sendMessage` does up to (and excluding) the network call:
either it throws the no-destination configuration error before any
network operation, or it transmits the serialized payload to the
resolved target URL. -/
inductive SendPrep where
  | noUrl : SendPrep
  | send (targetUrl : String) (payload : JVal) : SendPrep
deriving Repr

/-- The pre-network phase of `sendMessage(message, url)` with the
configured `webhookUrl` in scope. No validation of the message
happens here: index.js posts the payload as-is. -/
def sendPrep (webhookUrl : Option String) (message : JVal)
    (url : Option String) : SendPrep :=
  match resolveTarget url webhookUrl with
  | none => .noUrl
  | some t => .send t (formatPayload message)

/-- The model of a settled `fetch` response: `ok`, `status`, the
result of `response.json()` (`Except.error` when the body is not
parseable as JSON) and the result of `response.text()`. -/
structure FetchResponse where
  ok : Bool
  status : Nat
  jsonBody : Except String JVal
  textBody : String

/-- The post-network phase of `sendMessage`: a non-ok response
throws an error embedding the status and the response text; an ok
response is parsed as JSON, and a parse failure is swallowed by
returning `{success: true, raw: <response text>}`. -/
def handleResponse (r : FetchResponse) : Except String JVal :=
  if r.ok then
    match r.jsonBody with
    | .ok v => .ok v
    | .error _ =>
      .ok (.obj [("success", .bool true), ("raw", .str r.textBody)])
  else
    .error ("Failed to send message to Synology Chat: "
      ++ toString r.status ++ " " ++ r.textBody)

/-- The message `sendMessage` throws when no destination resolves. -/
def noUrlError : String :=
  "No webhook URL provided. Set it in the plugin options or pass it to sendMessage()"

/-- The full `sendMessage(message, url)` of index.js. `transport` models the
external `fetch`, mapping the target URL and the serialized payload
to the settled response; it is consulted only after a destination
resolves. -/
def sendMessage (webhookUrl : Option String) (message : JVal)
    (url : Option String) (transport : String → JVal → FetchResponse) :
    Except String JVal :=
  match sendPrep webhookUrl message url with
  | .noUrl => .error noUrlError
  | .send t payload => handleResponse (transport t payload)

/-! ## Concrete inputs used by the claims -/

/-- A message whose single attachment carries a button action but no
`callback_id` (the `/send-complex` example message without the
correlation id). -/
def msgNoCallback : JVal :=
  .obj [("text", .str "Monthly Report"),
        ("attachments", .arr [
          .obj [("text", .str "Sales have increased by 20% compared to last month."),
                ("actions", .arr [
                  .obj [("type", .str "button"),
                        ("name", .str "view_report"),
                        ("text", .str "View Full Report"),
                        ("value", .str "view_full_report"),
                        ("style", .str "blue")]])]])]

/-- A message whose `user_ids` holds the non-integer number 3/2. -/
def msgFloatUserId : JVal :=
  .obj [("text", .str "hi"), ("user_ids", .arr [.num (mkRat 3 2)])]

/-- The value of the last occurrence of a key in a flat key/value
sequence (the specification value for the overwrite semantics of
the form fold). -/
def lastParam : List (String × String) → String → Option String
  | [], _ => none
  | (k, v) :: rest, name =>
    match lastParam rest name with
    | some w => some w
    | none => if k = name then some v else none

/-! ## Claim theorems -/

/-- Claim C1 (the code contradicts it): evaluating the send path of
index.js at a message whose attachment carries actions but no
`callback_id` shows that the outbound `messageSchema` of the source
reports no violation at all (its attachment schema requires only
`text`, never `callback_id`), and that `sendMessage` — which
performs no validation — proceeds to transmit the message over the
network instead of failing first. The tests of the repository itself
(`rejects a message with attachments and buttons but missing
callback_id`, `rejects attachments with actions but missing
callback_id`) and its README assert the claimed rejection, so this
is a divergence of the code from its own tests and documentation. -/
theorem sendPath_accepts_missing_callback_id :
    validate anyUri "" messageSchema msgNoCallback = []
    ∧ sendPrep (some "https://example.com/webhook") msgNoCallback none
        = .send "https://example.com/webhook" msgNoCallback := by
  constructor
  · simp [validate, validateEach, validateProps, validateItems, messageSchema,
      messageObjSchema, attachmentSchema, actionSchema, msgNoCallback, getProp]
  · rfl

/-- Claim C2: normalizing a JSON body that parses to `v` and
normalizing a form-encoded body whose single `payload` field holds
the same JSON text yield the identical canonical message `v`. Both
paths of the source apply the same external `JSON.parse` (modelled
by the universally quantified `jparse`) to the same string. -/
theorem json_and_form_payload_normalize_identically
    (jparse : String → Except String JVal) (s : String) (v : JVal)
    (h : jparse s = .ok v) :
    parseJsonBody jparse s = parseFormBody jparse [("payload", s)]
    ∧ parseJsonBody jparse s = .ok v := by
  constructor <;> simp [parseJsonBody, parseFormBody, lookupParam, h]

/-- Witness for C2 at a concrete parse function and body. -/
theorem json_and_form_payload_normalize_identically_witness :
    parseJsonBody (fun x => .ok (.str x)) "hello"
      = parseFormBody (fun x => .ok (.str x)) [("payload", "hello")]
    ∧ parseJsonBody (fun x => .ok (.str x)) "hello" = .ok (.str "hello") :=
  json_and_form_payload_normalize_identically
    (fun x => .ok (.str x)) "hello" (.str "hello") rfl

/-- Claim C3: when the transport response is ok but its body is not
parseable as JSON, `sendMessage` returns the synthesized
`{success: true, raw: <response text>}` instead of propagating the
parse failure. -/
theorem sendMessage_ok_nonjson_returns_raw
    (webhookUrl url : Option String) (m : JVal) (t e : String)
    (transport : String → JVal → FetchResponse) (r : FetchResponse)
    (ht : resolveTarget url webhookUrl = some t)
    (hr : transport t (formatPayload m) = r)
    (hok : r.ok = true) (hjson : r.jsonBody = .error e) :
    sendMessage webhookUrl m url transport
      = .ok (.obj [("success", .bool true), ("raw", .str r.textBody)]) := by
  simp [sendMessage, sendPrep, ht, hr, handleResponse, hok, hjson]

/-- Witness for C3: a concrete ok response with an unparseable body. -/
theorem sendMessage_ok_nonjson_returns_raw_witness :
    sendMessage (some "https://example.com/webhook") (.str "hi") none
        (fun _ _ => ⟨true, 200, .error "Unexpected end of JSON input", "ACK"⟩)
      = .ok (.obj [("success", .bool true), ("raw", .str "ACK")]) :=
  sendMessage_ok_nonjson_returns_raw
    (some "https://example.com/webhook") none (.str "hi")
    "https://example.com/webhook" "Unexpected end of JSON input"
    (fun _ _ => ⟨true, 200, .error "Unexpected end of JSON input", "ACK"⟩)
    ⟨true, 200, .error "Unexpected end of JSON input", "ACK"⟩
    rfl rfl rfl rfl

/-- Claim C4: a (truthy) per-call override wins over any configured
default; with no override the (truthy) configured default is used;
and when neither is present `sendMessage` fails with the
configuration error `No webhook URL provided. Set it in the plugin
options or pass it to sendMessage()` for every possible transport —
i.e. before any network operation. -/
theorem sendMessage_destination_resolution (u w : String) :
    (u ≠ "" → ∀ w2 : Option String, resolveTarget (some u) w2 = some u)
    ∧ (w ≠ "" → resolveTarget none (some w) = some w)
    ∧ (∀ (m : JVal) (transport : String → JVal → FetchResponse),
        sendMessage none m none transport = .error noUrlError) := by
  refine ⟨fun hu w2 => ?_, fun hw => ?_, fun m transport => ?_⟩
  · simp [resolveTarget, strTruthy, hu]
  · simp [resolveTarget, strTruthy, hw]
  · rfl

/-- Witness for C4 at concrete URLs. -/
theorem sendMessage_destination_resolution_witness :
    resolveTarget (some "https://a.example") (some "https://b.example")
        = some "https://a.example"
    ∧ resolveTarget none (some "https://b.example") = some "https://b.example"
    ∧ sendMessage none (.str "hi") none (fun _ _ => ⟨true, 200, .ok .null, ""⟩)
        = .error noUrlError := by
  have h := sendMessage_destination_resolution "https://a.example" "https://b.example"
  exact ⟨h.1 (by decide) (some "https://b.example"), h.2.1 (by decide),
    h.2.2 (.str "hi") (fun _ _ => ⟨true, 200, .ok .null, ""⟩)⟩

/-- Claim C5: a handler that throws is caught by the route handler,
which answers the request (the adapter is a total function) with
status 500 and JSON body `{success: false, error: <message>}`. -/
theorem handler_error_answered_with_500
    (onMessage : JVal → Except String (Option JVal)) (body : JVal)
    (m : String) (h : onMessage body = .error m) :
    postHandler onMessage body
      = ⟨500, .json (.obj [("success", .bool false), ("error", .str m)])⟩ := by
  simp [postHandler, h]

/-- Witness for C5: a handler that throws `boom`. -/
theorem handler_error_answered_with_500_witness :
    postHandler (fun _ => .error "boom") (.obj [("text", .str "hi")])
      = ⟨500, .json (.obj [("success", .bool false), ("error", .str "boom")])⟩ :=
  handler_error_answered_with_500 (fun _ => .error "boom")
    (.obj [("text", .str "hi")]) "boom" rfl

/-- Claim C6: the route handler maps the awaited handler result:
an object is returned as the JSON response body, a string is
returned verbatim as a plain-text body, and an absent result
(`undefined` or `null`) yields the default `{success: true}`. -/
theorem handler_result_mapping
    (onMessage : JVal → Except String (Option JVal)) (body : JVal) :
    (∀ props, onMessage body = .ok (some (.obj props)) →
        postHandler onMessage body = ⟨200, .json (.obj props)⟩)
    ∧ (∀ s, onMessage body = .ok (some (.str s)) →
        postHandler onMessage body = ⟨200, .text s⟩)
    ∧ (onMessage body = .ok none →
        postHandler onMessage body = ⟨200, .json (.obj [("success", .bool true)])⟩)
    ∧ (onMessage body = .ok (some .null) →
        postHandler onMessage body = ⟨200, .json (.obj [("success", .bool true)])⟩) := by
  refine ⟨fun props h => ?_, fun s h => ?_, fun h => ?_, fun h => ?_⟩
    <;> simp [postHandler, h]

/-- Witness for C6 on the three result shapes at concrete handlers. -/
theorem handler_result_mapping_witness :
    postHandler (fun _ => .ok (some (.obj [("text", .str "ok")])))
        (.obj [("text", .str "hi")])
      = ⟨200, .json (.obj [("text", .str "ok")])⟩
    ∧ postHandler (fun _ => .ok (some (.str "OK"))) (.obj [("text", .str "hi")])
      = ⟨200, .text "OK"⟩
    ∧ postHandler (fun _ => .ok none) (.obj [("text", .str "hi")])
      = ⟨200, .json (.obj [("success", .bool true)])⟩ :=
  ⟨(handler_result_mapping (fun _ => .ok (some (.obj [("text", .str "ok")])))
      (.obj [("text", .str "hi")])).1 [("text", .str "ok")] rfl,
   (handler_result_mapping (fun _ => .ok (some (.str "OK")))
      (.obj [("text", .str "hi")])).2.1 "OK" rfl,
   (handler_result_mapping (fun _ => .ok none)
      (.obj [("text", .str "hi")])).2.2.1 rfl⟩

/-- Claim C7: a form-encoded body whose `payload` field is present
but not valid JSON is rejected with a 400 client error by the
content-type parser, for every registered handler — the handler is
never invoked. -/
theorem form_invalid_payload_rejected_before_handler
    (jparse : String → Except String JVal)
    (params : List (String × String)) (p e : String)
    (hp : lookupParam params "payload" = some p)
    (he : jparse p = .error e) :
    ∀ onMessage, handleInboundForm jparse onMessage params
      = .error ⟨400, "Invalid JSON in payload: " ++ e⟩ := by
  intro onMessage
  simp [handleInboundForm, parseFormBody, hp, he]

/-- Witness for C7: a concrete malformed `payload` field. -/
theorem form_invalid_payload_rejected_before_handler_witness :
    handleInboundForm (fun _ => .error "Unexpected token i in JSON")
        (fun _ => .ok none) [("payload", "not json at all")]
      = .error ⟨400, "Invalid JSON in payload: " ++ "Unexpected token i in JSON"⟩ :=
  form_invalid_payload_rejected_before_handler
    (fun _ => .error "Unexpected token i in JSON")
    [("payload", "not json at all")] "not json at all"
    "Unexpected token i in JSON" rfl rfl (fun _ => .ok none)

/-- Claim C10: an empty-string per-call override is falsy, so
destination resolution falls back to the configured default
`webhookUrl` and the message is prepared for delivery there. -/
theorem empty_override_falls_back_to_default (w : String) (hw : w ≠ "")
    (m : JVal) :
    resolveTarget (some "") (some w) = some w
    ∧ sendPrep (some w) m (some "") = .send w (formatPayload m) := by
  constructor
  · simp [resolveTarget, strTruthy, hw]
  · simp [sendPrep, resolveTarget, strTruthy, hw]

/-! ### Lemmas about the form fold (for C9) -/

/-- Setting a key makes it readable back. -/
lemma getProp_setProp_self (acc : List (String × JVal)) (key : String)
    (v : JVal) : getProp (setProp acc key v) key = some v := by
  induction acc with
  | nil => simp [setProp, getProp]
  | cons kv rest ih =>
    obtain ⟨k, w⟩ := kv
    by_cases h : k = key <;> simp [setProp, getProp, h, ih]

/-- Setting a key leaves every other key unchanged. -/
lemma getProp_setProp_ne (acc : List (String × JVal)) (key name : String)
    (v : JVal) (h : name ≠ key) :
    getProp (setProp acc key v) name = getProp acc name := by
  induction acc with
  | nil => simp [setProp, getProp, Ne.symm h]
  | cons kv rest ih =>
    obtain ⟨k, w⟩ := kv
    by_cases hk : k = key
    · subst hk
      simp [setProp, getProp, Ne.symm h]
    · simp only [setProp, if_neg hk]
      by_cases hn : k = name
      · simp [getProp, hn]
      · simp [getProp, hn, ih]

/-- The keys after a set: unchanged when the key existed, the key
appended otherwise. -/
lemma keys_setProp (acc : List (String × JVal)) (key : String) (v : JVal) :
    (setProp acc key v).map Prod.fst
      = if key ∈ acc.map Prod.fst then acc.map Prod.fst
        else acc.map Prod.fst ++ [key] := by
  induction acc with
  | nil => simp [setProp]
  | cons kv rest ih =>
    obtain ⟨k, w⟩ := kv
    by_cases h : k = key
    · subst h
      simp [setProp]
    · by_cases hm : key ∈ rest.map Prod.fst
        <;> simp [setProp, h, Ne.symm h, hm, ih]

/-- Key membership after a set. -/
lemma mem_keys_setProp (acc : List (String × JVal)) (key name : String)
    (v : JVal) :
    (name ∈ (setProp acc key v).map Prod.fst)
      ↔ (name ∈ acc.map Prod.fst ∨ name = key) := by
  rw [keys_setProp]
  split
  · rename_i h
    exact ⟨Or.inl, fun hc => hc.elim id (fun e => e ▸ h)⟩
  · simp

/-- A set preserves distinctness of the keys. -/
lemma nodup_keys_setProp (acc : List (String × JVal)) (key : String)
    (v : JVal) (h : (acc.map Prod.fst).Nodup) :
    ((setProp acc key v).map Prod.fst).Nodup := by
  rw [keys_setProp]
  split
  · exact h
  · rename_i hm
    simp [List.nodup_append, h, hm]

/-- If the key never occurs in the remaining parameters, the fold
leaves its binding in the accumulator untouched. -/
lemma foldl_getProp_of_lastParam_none (params : List (String × String))
    (k : String) (hs : lastParam params k = none) :
    ∀ acc, getProp (params.foldl foldStep acc) k = getProp acc k := by
  induction params with
  | nil => intro acc; rfl
  | cons kv rest ih =>
    intro acc
    obtain ⟨k1, v1⟩ := kv
    have hrest : lastParam rest k = none := by
      unfold lastParam at hs
      cases h : lastParam rest k with
      | none => rfl
      | some w => rw [h] at hs; exact absurd hs (by simp)
    have hne : k1 ≠ k := by
      unfold lastParam at hs
      rw [hrest] at hs
      intro he
      rw [if_pos he] at hs
      exact absurd hs (by simp)
    rw [List.foldl_cons, ih hrest]
    exact getProp_setProp_ne acc k1 k (.str v1) (Ne.symm hne)

/-- After the fold, a key that occurs in the parameters holds the
value of its last occurrence. -/
lemma foldl_getProp_of_lastParam_some (params : List (String × String))
    (k w : String) (hs : lastParam params k = some w) :
    ∀ acc, getProp (params.foldl foldStep acc) k = some (.str w) := by
  induction params with
  | nil => intro acc; exact absurd hs (by simp [lastParam])
  | cons kv rest ih =>
    intro acc
    obtain ⟨k1, v1⟩ := kv
    rw [List.foldl_cons]
    cases h : lastParam rest k with
    | some w2 =>
      have hw : w2 = w := by
        unfold lastParam at hs
        rw [h] at hs
        simpa using hs
      exact ih (hw ▸ h) _
    | none =>
      have hk : k1 = k ∧ v1 = w := by
        unfold lastParam at hs
        rw [h] at hs
        by_cases he : k1 = k
        · rw [if_pos he] at hs
          exact ⟨he, by simpa using hs⟩
        · rw [if_neg he] at hs
          exact absurd hs (by simp)
      rw [foldl_getProp_of_lastParam_none rest k h]
      rw [show foldStep acc (k1, v1) = setProp acc k (.str w) by
        simp [foldStep, hk.1, hk.2]]
      exact getProp_setProp_self acc k (.str w)

/-- Key membership after the whole fold. -/
lemma mem_keys_foldl (params : List (String × String))
    (k : String) :
    ∀ acc, (k ∈ (params.foldl foldStep acc).map Prod.fst)
      ↔ (k ∈ acc.map Prod.fst ∨ k ∈ params.map Prod.fst) := by
  induction params with
  | nil => intro acc; simp
  | cons kv rest ih =>
    intro acc
    obtain ⟨k1, v1⟩ := kv
    rw [List.foldl_cons, ih]
    simp only [foldStep, mem_keys_setProp, List.map_cons, List.mem_cons]
    tauto

/-- The fold keeps the keys distinct. -/
lemma nodup_keys_foldl (params : List (String × String)) :
    ∀ acc, (acc.map Prod.fst).Nodup
      → ((params.foldl foldStep acc).map Prod.fst).Nodup := by
  induction params with
  | nil => exact fun acc h => h
  | cons kv rest ih =>
    intro acc h
    rw [List.foldl_cons]
    exact ih _ (nodup_keys_setProp acc kv.1 (.str kv.2) h)

/-- Claim C9: in the form path with no `payload` field, the
canonical object is the fold of the flat pairs; a key occurring in
the pairs occurs exactly once among the keys of the object, and its
value is the string value of the last occurrence of the key (later pairs
overwrite earlier ones). -/
theorem form_fold_last_occurrence_wins (params : List (String × String))
    (k : String) (hk : k ∈ params.map Prod.fst)
    (hnp : lookupParam params "payload" = none) :
    (∀ jparse, parseFormBody jparse params = .ok (.obj (foldParams params)))
    ∧ ((foldParams params).map Prod.fst).count k = 1
    ∧ getProp (foldParams params) k = (lastParam params k).map JVal.str := by
  have hfold : foldParams params = params.foldl foldStep [] := rfl
  have hmem : k ∈ (foldParams params).map Prod.fst := by
    rw [hfold, mem_keys_foldl]
    exact Or.inr hk
  refine ⟨fun jparse => ?_, ?_, ?_⟩
  · simp [parseFormBody, hnp]
  · exact List.count_eq_one_of_mem
      (hfold ▸ nodup_keys_foldl params [] (by simp)) hmem
  · cases h : lastParam params k with
    | some w => simpa using hfold ▸ foldl_getProp_of_lastParam_some params k w h []
    | none => simpa using hfold ▸ foldl_getProp_of_lastParam_none params k h []

/-- Witness for C9: the key `a` occurs twice; the folded object
holds it once, with the value of the later occurrence. -/
theorem form_fold_last_occurrence_wins_witness :
    (parseFormBody (fun _ => .error "unused")
        [("a", "1"), ("b", "2"), ("a", "3")]
      = .ok (.obj (foldParams [("a", "1"), ("b", "2"), ("a", "3")])))
    ∧ ((foldParams [("a", "1"), ("b", "2"), ("a", "3")]).map Prod.fst).count "a" = 1
    ∧ getProp (foldParams [("a", "1"), ("b", "2"), ("a", "3")]) "a"
        = some (.str "3") := by
  have h := form_fold_last_occurrence_wins [("a", "1"), ("b", "2"), ("a", "3")]
    "a" (by simp) rfl
  exact ⟨h.1 _, h.2.1, h.2.2⟩

/-! ### Lemmas about per-element array violations (for C8) -/

/-- If validating the `i`-th element at any path yields the given
violation at that path, then validating the whole array starting at
index base `n` reports it at index `n + i`. -/
lemma mem_validateItems (uc : String → Bool) (path : String) (s : JSchema)
    (kw pm : String) (xs : List JVal) :
    ∀ (i n : ℕ) (hi : i < xs.length),
      (∀ p, (⟨p, kw, pm⟩ : Violation) ∈ validate uc p s (xs.get ⟨i, hi⟩))
      → (⟨path ++ "/" ++ toString (n + i), kw, pm⟩ : Violation)
          ∈ validateItems uc path s xs n := by
  induction xs with
  | nil => intro i n hi _; exact absurd hi (by simp)
  | cons x rest ih =>
    intro i n hi hx
    cases i with
    | zero =>
      simp only [validateItems, Nat.add_zero]
      exact List.mem_append_left _ (hx (path ++ "/" ++ toString n))
    | succ j =>
      have hj : j < rest.length := by simpa using hi
      have hmem := ih j (n + 1) hj (fun p => hx p)
      simp only [validateItems]
      refine List.mem_append_right _ ?_
      have harith : n + 1 + j = n + (j + 1) := by omega
      rw [harith] at hmem
      exact hmem

/-- A value that is not an integer fails the `integer` item schema
with a wrong-type violation at its own path. -/
lemma validate_int_mem (uc : String → Bool) (x : JVal)
    (h : x.isInt = false) (p : String) :
    (⟨p, "type", "integer"⟩ : Violation) ∈ validate uc p .int x := by
  cases x <;> simp_all [validate, JVal.isInt]

/-- In the inbound first-error model, an array of numbers or
number-coercible values followed by a value that is neither stops
validation at that value with a wrong-type violation at its index. -/
lemma firstViolationItems_fails_at (cn : JVal → Option ℚ)
    (cs : JVal → Option String) (path : String) (pre : List JVal) :
    ∀ (n : ℕ) (x : JVal) (post : List JVal),
      (∀ y ∈ pre, y.isNum = true ∨ (cn y).isSome = true) →
      x.isNum = false → cn x = none →
      firstViolationItems cn cs path .num (pre ++ x :: post) n
        = some ⟨path ++ "/" ++ toString (n + pre.length), "type", "number"⟩ := by
  induction pre with
  | nil =>
    intro n x post _ hxn hxc
    have hfv : firstViolation cn cs (path ++ "/" ++ toString n) JSchema.num x
        = some ⟨path ++ "/" ++ toString n, "type", "number"⟩ := by
      cases x <;> simp_all [firstViolation, JVal.isNum]
    simp [firstViolationItems, hfv]
  | cons y pre ih =>
    intro n x post hpre hxn hxc
    have hy := hpre y (List.mem_cons_self y pre)
    have hfy : firstViolation cn cs (path ++ "/" ++ toString n) JSchema.num y
        = none := by
      rcases hy with hy | hy
      · cases y <;> simp_all [firstViolation, JVal.isNum]
      · rcases Option.isSome_iff_exists.mp hy with ⟨q, hq⟩
        cases y <;> simp_all [firstViolation]
    have hrest := ih (n + 1) x post
      (fun z hz => hpre z (List.mem_cons_of_mem y hz)) hxn hxc
    have harith : n + 1 + pre.length = n + (pre.length + 1) := by omega
    rw [harith] at hrest
    simp only [List.cons_append, firstViolationItems, hfy, List.length_cons]
    exact hrest

/-- Violations of the `user_ids` items surface in validation of the
object branch of the outbound profile. -/
lemma mem_validate_messageObjSchema_user_ids (uc : String → Bool)
    (props : List (String × JVal)) (xs : List JVal) (viol : Violation)
    (hu : getProp props "user_ids" = some (.arr xs))
    (hv : viol ∈ validateItems uc "/user_ids" .int xs 0) :
    viol ∈ validate uc "" messageObjSchema (.obj props) := by
  simp only [messageObjSchema, validate, validateProps, hu, List.mem_append,
    List.append_nil]
  tauto

/-- On an object input, every violation of the object branch
surfaces in the outbound `oneOf` validation (the bare-string branch
fails with a root type violation, so no branch passes and all
branch errors are reported). -/
lemma mem_validate_messageSchema_of_obj (uc : String → Bool)
    (props : List (String × JVal)) (viol : Violation)
    (hv : viol ∈ validate uc "" messageObjSchema (.obj props)) :
    viol ∈ validate uc "" messageSchema (.obj props) := by
  have hne : (validate uc "" messageObjSchema (.obj props)).isEmpty = false := by
    rw [List.isEmpty_eq_false_iff_exists_mem]
    exact ⟨viol, hv⟩
  simp only [messageSchema, validate, validateEach]
  simp [List.countP_cons, List.countP_nil, hne, List.mem_append, hv]

/-- Counterexample to claim C8 as stated: the non-integer number
3/2 in `user_ids` draws no violation at all from the inbound
profile, whose item type is `number`, not `integer` — neither under
the collect-all validator applied to the inbound schema nor under
the inbound first-error model with coercion. The number-coercible
non-integer string "3" is likewise accepted inbound (fastify
default Ajv coerces it), refuting the claim a second way. -/
theorem user_ids_noninteger_accepted_inbound :
    JVal.isInt (.num (mkRat 3 2)) = false
    ∧ validate anyUri "" webhookSchema msgFloatUserId = []
    ∧ firstViolation coerceNumModel coerceStrModel "" webhookSchema
        msgFloatUserId = none
    ∧ JVal.isInt (.str "3") = false
    ∧ firstViolation coerceNumModel coerceStrModel "" webhookSchema
        (.obj [("text", .str "hi"),
               ("user_ids", .arr [.num 1, .str "3", .num 3])]) = none := by
  have h3 : coerceNumModel (.str "3") = some 3 := by decide
  refine ⟨by decide, ?_, ?_, by decide, ?_⟩
  · simp [validate, validateProps, validateItems, webhookSchema,
      attachmentSchemaIn, actionSchemaIn, msgFloatUserId, getProp]
  · simp [firstViolation, firstViolationItems, firstViolationProps,
      webhookSchema, attachmentSchemaIn, actionSchemaIn, msgFloatUserId,
      getProp]
  · simp [firstViolation, firstViolationItems, firstViolationProps,
      webhookSchema, attachmentSchemaIn, actionSchemaIn, getProp, h3]

/-- Claim C8 as amended: on the outbound profile, every `user_ids`
element that is not an integer yields a wrong-type violation at
`/user_ids/<i>`. On the inbound profile — first-error validation
with Ajv type coercion — an element that is neither a number nor
coercible to one is the reported wrong-type violation at its path
whenever the elements before it are numbers or coercible and `text`
is a string; elements the coercion accepts (non-integer numbers,
numeric strings, booleans, null) draw no inbound violation. The
spec scenario `{text: "hi", user_ids: [1, "x", 3]}` is reported at
`/user_ids/1` under both profiles. -/
theorem user_ids_wrong_type_violation_paths :
    (∀ (props : List (String × JVal)) (xs : List JVal) (i : ℕ)
        (hi : i < xs.length) (uc : String → Bool),
      getProp props "user_ids" = some (.arr xs) →
      (xs.get ⟨i, hi⟩).isInt = false →
      (⟨"/user_ids/" ++ toString i, "type", "integer"⟩ : Violation)
        ∈ validate uc "" messageSchema (.obj props))
    ∧ (∀ (cn : JVal → Option ℚ) (cs : JVal → Option String) (t : String)
        (pre post : List JVal) (x : JVal),
      (∀ y ∈ pre, y.isNum = true ∨ (cn y).isSome = true) →
      x.isNum = false → cn x = none →
      firstViolation cn cs "" webhookSchema
          (.obj [("text", .str t), ("user_ids", .arr (pre ++ x :: post))])
        = some ⟨"/user_ids/" ++ toString pre.length, "type", "number"⟩) := by
  constructor
  · intro props xs i hi uc hu h
    apply mem_validate_messageSchema_of_obj
    apply mem_validate_messageObjSchema_user_ids uc props xs _ hu
    have hmem := mem_validateItems uc "/user_ids" .int "type" "integer" xs i 0 hi
      (fun p => validate_int_mem uc _ h p)
    simpa using hmem
  · intro cn cs t pre post x hpre hxn hxc
    have hitems := firstViolationItems_fails_at cn cs "/user_ids" pre 0 x post
      hpre hxn hxc
    simp only [Nat.zero_add] at hitems
    simp [webhookSchema, firstViolation, firstViolationProps, getProp, hitems]

/-- Witness for amended C8: the spec scenario
`{text: "hi", user_ids: [1, "x", 3]}` yields the wrong-type
violation at `/user_ids/1` under the outbound profile and is the
single violation the inbound first-error validation reports. -/
theorem user_ids_wrong_type_violation_paths_witness :
    (⟨"/user_ids/" ++ toString 1, "type", "integer"⟩ : Violation)
      ∈ validate anyUri "" messageSchema
          (.obj [("text", .str "hi"),
                 ("user_ids", .arr [.num 1, .str "x", .num 3])])
    ∧ firstViolation coerceNumModel coerceStrModel "" webhookSchema
        (.obj [("text", .str "hi"),
               ("user_ids", .arr [.num 1, .str "x", .num 3])])
      = some ⟨"/user_ids/" ++ toString 1, "type", "number"⟩ := by
  refine ⟨user_ids_wrong_type_violation_paths.1
    [("text", .str "hi"), ("user_ids", .arr [.num 1, .str "x", .num 3])]
    [.num 1, .str "x", .num 3] 1 (by decide) anyUri rfl rfl, ?_⟩
  have h2 := user_ids_wrong_type_violation_paths.2 coerceNumModel
    coerceStrModel "hi" [.num 1] [.num 3] (.str "x")
    (by
      intro y hy
      rw [List.mem_singleton] at hy
      subst hy
      exact Or.inl rfl) rfl rfl
  exact h2

/-- Witness for C10 at a concrete default URL. -/
theorem empty_override_falls_back_to_default_witness :
    resolveTarget (some "") (some "https://example.com/webhook")
        = some "https://example.com/webhook"
    ∧ sendPrep (some "https://example.com/webhook") (.str "hi") (some "")
        = .send "https://example.com/webhook" (formatPayload (.str "hi")) :=
  empty_override_falls_back_to_default "https://example.com/webhook"
    (by decide) (.str "hi")

end SynologyChat
